import Mathlib

/-!
A shallow embedding of the home_os energy rollup and range-query engine.

Numbers: JavaScript floats are modelled as exact rationals (`ℚ`) and Unix
timestamps as integers (`ℤ`).  `Math.floor(x / c) * c` for a positive
constant `c` on integers is floor division, which is `Int.ediv` (Lean's `/`
on `ℤ`) for positive divisors.  JavaScript's stable `Array.prototype.sort`
with comparator `(a, b) => ts(a) - ts(b)` is modelled by the stable
`List.mergeSort` with `ts a ≤ ts b`.  Database stores are modelled as lists
of rows; queries filter and sort them.  Local time (`Date#getHours` etc.) is
modelled for a fixed UTC-offset zone via a `tzOffset` parameter (seconds to
add to UTC to get local time).
-/

namespace HomeOS

/-- Raw reading row (`EnergyReading` in `types/energy.ts`). -/
structure EnergyReading where
  id : ℤ
  timestamp : ℤ
  home : ℚ
  grid : ℚ
  car : ℚ
  solar : ℚ
  created_at : ℤ
deriving DecidableEq

/-- One-minute rollup row (`EnergyBucket` in `packages/core/src/types/energy.ts`). -/
structure EnergyBucket where
  bucket_start : ℤ
  bucket_end : ℤ
  home_kwh : ℚ
  grid_kwh : ℚ
  car_kwh : ℚ
  solar_kwh : ℚ
  readings_count : ℕ
  first_timestamp : ℤ
  last_timestamp : ℤ
  first_home : ℚ
  first_grid : ℚ
  first_car : ℚ
  first_solar : ℚ
  last_home : ℚ
  last_grid : ℚ
  last_car : ℚ
  last_solar : ℚ
deriving DecidableEq

/-- A `{timestamp, value}` record as produced by the per-channel `.map`
    projections inside `aggregateEnergyData`. -/
structure TimedValue where
  timestamp : ℤ
  value : ℚ
deriving DecidableEq

/-- Output point (`AggregatedDataPoint` in `types/energy.ts`). -/
structure AggregatedDataPoint where
  label : String
  kwh : ℚ
  timestamp : ℤ
deriving DecidableEq

/-- `AggregatedResponse { data, total }`. -/
structure AggregatedResponse where
  data : List AggregatedDataPoint
  total : ℚ
deriving DecidableEq

/-- `GridAggregatedResponse { consumption, feedIn }`. -/
structure GridAggregatedResponse where
  consumption : AggregatedResponse
  feedIn : AggregatedResponse
deriving DecidableEq

/-- The `'grid' | 'car' | 'solar'` union. -/
inductive EnergyType where
  | grid
  | car
  | solar
deriving DecidableEq

/-- `aggregateEnergyData` returns a `GridAggregatedResponse` for `grid` and an
    `AggregatedResponse` otherwise; the union is modelled as a sum. -/
inductive AggregationResult where
  | single (response : AggregatedResponse)
  | both (response : GridAggregatedResponse)
deriving DecidableEq

/-- `ConsumingPricePeriod` in `types/energy.ts` (minutes of local day). -/
structure ConsumingPricePeriod where
  id : ℤ
  energy_settings_id : ℤ
  start_time : ℤ
  end_time : ℤ
  price : ℚ
deriving DecidableEq

/-- `EnergySettings` in `types/energy.ts`; `consuming_periods` is optional. -/
structure EnergySettings where
  id : ℤ
  producing_price : ℚ
  start_date : ℤ
  end_date : Option ℤ
  consuming_periods : Option (List ConsumingPricePeriod)
deriving DecidableEq

/-- JS `[...l].sort((a, b) => tsOf(a) - tsOf(b))`: stable ascending sort by an
    integer timestamp key. -/
def sortByTimestamp {T : Type} (tsOf : T → ℤ) (l : List T) : List T :=
  l.mergeSort fun a b => tsOf a ≤ tsOf b

/-- The trapezoidal accumulation loop shared by `calculateTotalEnergy`,
    `aggregateByHour` and `aggregateByDay` in `lib/energy-aggregation.ts`:
    for each adjacent pair, `totalEnergyWh += ((p1 + p2) / 2) * dt / 3600`.
    Returns watt-hours. -/
def trapezoidWh {T : Type} (tsOf : T → ℤ) (extractor : T → ℚ) : List T → ℚ
  | r1 :: r2 :: rest =>
      (extractor r1 + extractor r2) / 2 * ((tsOf r2 : ℚ) - (tsOf r1 : ℚ)) / 3600
        + trapezoidWh tsOf extractor (r2 :: rest)
  | _ => 0

/-- `calculateTotalEnergy` from `lib/energy-aggregation.ts`: guard on fewer
    than 2 readings, optional value filter, guard again, sort a copy by
    timestamp, trapezoidal integration over the whole run, convert to kWh. -/
def calculateTotalEnergy {T : Type} (tsOf : T → ℤ) (readings : List T)
    (extractor : T → ℚ) (filterFn : Option (ℚ → Bool)) : ℚ :=
  if readings.length < 2 then 0
  else
    let filteredReadings :=
      match filterFn with
      | some f => readings.filter fun r => f (extractor r)
      | none => readings
    if filteredReadings.length < 2 then 0
    else trapezoidWh tsOf extractor (sortByTimestamp tsOf filteredReadings) / 1000

/-- One step of filling a JS `Map<number, T[]>`: append to the group of `key`
    if present (groups keep element insertion order), otherwise append a new
    group at the end (JS `Map` iterates in key insertion order). -/
def insertGrouped {T : Type} (key : ℤ) (r : T) :
    List (ℤ × List T) → List (ℤ × List T)
  | [] => [(key, [r])]
  | (k, rs) :: rest =>
      if k = key then (k, rs ++ [r]) :: rest
      else (k, rs) :: insertGrouped key r rest

/-- Builds the JS `Map` of groups in insertion order. -/
def groupByKey {T : Type} (keyOf : T → ℤ) (l : List T) : List (ℤ × List T) :=
  l.foldl (fun acc r => insertGrouped (keyOf r) r acc) []

/-- `hour.toString().padStart(2, '0')`. -/
def pad2 (n : ℤ) : String :=
  if n < 10 then "0" ++ toString n else toString n

/-- Seconds since local midnight for a fixed-offset zone. -/
def localSecondsOfDay (tzOffset t : ℤ) : ℤ :=
  (t + tzOffset) % 86400

/-- `date.getHours()` in a fixed-offset zone. -/
def localHour (tzOffset t : ℤ) : ℤ :=
  localSecondsOfDay tzOffset t / 3600

/-- `date.getHours() * 60 + date.getMinutes()` in a fixed-offset zone
    (equal to seconds-of-day divided by 60, rounding down). -/
def localMinuteOfDay (tzOffset t : ℤ) : ℤ :=
  localSecondsOfDay tzOffset t / 60

/-- The hourly label `${hour.toString().padStart(2, '0')}:00`. -/
def hourLabel (tzOffset t : ℤ) : String :=
  pad2 (localHour tzOffset t) ++ ":00"

/-- Local-midnight-aligned start of the local calendar day containing `t`
    (`new Date(y, m, d)` for the local date of `t`), fixed-offset model. -/
def localDayStart (tzOffset t : ℤ) : ℤ :=
  ((t + tzOffset) / 86400) * 86400 - tzOffset

/-- The daily label.  `toLocaleDateString('en-US', {month, day})` is locale
    string formatting outside the numeric model; it is abstracted as the
    decimal rendering of the local day index.  No claim inspects labels. -/
def dayLabel (tzOffset t : ℤ) : String :=
  toString ((t + tzOffset) / 86400)

/-- `aggregateByHour` from `lib/energy-aggregation.ts`: filter, group readings
    by UTC hour (`Math.floor(ts / 3600) * 3600`), drop groups with fewer than
    2 readings, sort each group and integrate it, sort the points by
    timestamp. -/
def aggregateByHour {T : Type} (tzOffset : ℤ) (tsOf : T → ℤ) (readings : List T)
    (extractor : T → ℚ) (filterFn : Option (ℚ → Bool)) : List AggregatedDataPoint :=
  if readings.length = 0 then []
  else
    let filteredReadings :=
      match filterFn with
      | some f => readings.filter fun r => f (extractor r)
      | none => readings
    if filteredReadings.length = 0 then []
    else
      let hourBuckets := groupByKey (fun r => tsOf r / 3600 * 3600) filteredReadings
      let result := hourBuckets.foldl
        (fun acc kv =>
          if kv.2.length < 2 then acc
          else
            let bucketReadings := sortByTimestamp tsOf kv.2
            let kwh := trapezoidWh tsOf extractor bucketReadings / 1000
            acc ++ [⟨hourLabel tzOffset kv.1, kwh, kv.1⟩])
        []
      sortByTimestamp AggregatedDataPoint.timestamp result

/-- `aggregateByDay` from `lib/energy-aggregation.ts`: same shape as
    `aggregateByHour` but grouped by local calendar day. -/
def aggregateByDay {T : Type} (tzOffset : ℤ) (tsOf : T → ℤ) (readings : List T)
    (extractor : T → ℚ) (filterFn : Option (ℚ → Bool)) : List AggregatedDataPoint :=
  if readings.length = 0 then []
  else
    let filteredReadings :=
      match filterFn with
      | some f => readings.filter fun r => f (extractor r)
      | none => readings
    if filteredReadings.length = 0 then []
    else
      let dayBuckets := groupByKey (fun r => localDayStart tzOffset (tsOf r)) filteredReadings
      let result := dayBuckets.foldl
        (fun acc kv =>
          if kv.2.length < 2 then acc
          else
            let bucketReadings := sortByTimestamp tsOf kv.2
            let kwh := trapezoidWh tsOf extractor bucketReadings / 1000
            acc ++ [⟨dayLabel tzOffset kv.1, kwh, kv.1⟩])
        []
      sortByTimestamp AggregatedDataPoint.timestamp result

/-- The in-order scan over `settings.consuming_periods` inside
    `EnergyService.calculateConsumptionCost` (`lib/services/energy-service.ts`),
    returning the price of the first period whose window contains `minutes`
    (with the wrap-around clause), or `none` if no period matches. -/
def scanPeriods (minutes : ℤ) : List ConsumingPricePeriod → Option ℚ
  | [] => none
  | period :: rest =>
      if period.start_time ≤ minutes ∧ minutes < period.end_time then some period.price
      else if period.start_time > period.end_time ∧
          (minutes ≥ period.start_time ∨ minutes < period.end_time) then some period.price
      else scanPeriods minutes rest

/-- The spec's period-match predicate: `start ≤ m < end`, or for wrap-around
    periods (`start > end`), `m ≥ start` or `m < end`. -/
def periodMatches (minutes : ℤ) (p : ConsumingPricePeriod) : Bool :=
  (p.start_time ≤ minutes ∧ minutes < p.end_time) ∨
    (p.start_time > p.end_time ∧ (minutes ≥ p.start_time ∨ minutes < p.end_time))

/-- `EnergyService.calculateConsumptionCost`: 0 without settings or for
    non-positive kWh; otherwise the first matching period's price applied to
    `kwh`, with fallback to `consuming_periods[0]?.price ?? 0`. -/
def calculateConsumptionCost (tzOffset : ℤ) (kwh : ℚ) (timestamp : ℤ)
    (settings : Option EnergySettings) : ℚ :=
  match settings with
  | none => 0
  | some s =>
      if kwh ≤ 0 then 0
      else
        let minutes := localMinuteOfDay tzOffset timestamp
        match s.consuming_periods with
        | none => 0
        | some periods =>
            match scanPeriods minutes periods with
            | some price => kwh * price
            | none => kwh * ((periods.head?.map ConsumingPricePeriod.price).getD 0)

/-- `EnergyService.calculateFeedInCost`: flat `producing_price`. -/
def calculateFeedInCost (kwh : ℚ) (settings : Option EnergySettings) : ℚ :=
  match settings with
  | none => 0
  | some s => if kwh ≤ 0 then 0 else kwh * s.producing_price

/-- `EnergyService.aggregateEnergyData` (`apps/web/lib/services/energy-service.ts`):
    grid splits into consumption (values kept, filter `grid ≥ 0`) and feed-in
    (negative values sign-flipped, filter `grid > 0`); car/solar keep positive
    values only; hourly points for `day`/`yesterday`, daily otherwise. -/
def aggregateEnergyData (tzOffset : ℤ) (readings : List EnergyReading)
    (timeframe : String) (etype : EnergyType) : AggregationResult :=
  if readings.length = 0 then
    match etype with
    | .grid => .both ⟨⟨[], 0⟩, ⟨[], 0⟩⟩
    | .car => .single ⟨[], 0⟩
    | .solar => .single ⟨[], 0⟩
  else
    match etype with
    | .grid =>
        let consumptionReadings := readings.map fun r => TimedValue.mk r.timestamp r.grid
        let feedInReadings := readings.map fun r =>
          TimedValue.mk r.timestamp (if r.grid < 0 then |r.grid| else 0)
        let consumptionTotal := calculateTotalEnergy TimedValue.timestamp consumptionReadings
          TimedValue.value (some fun grid => grid ≥ 0)
        let feedInTotal := calculateTotalEnergy TimedValue.timestamp feedInReadings
          TimedValue.value (some fun grid => grid > 0)
        let consumptionAggregated :=
          if timeframe = "day" ∨ timeframe = "yesterday" then
            aggregateByHour tzOffset TimedValue.timestamp consumptionReadings
              TimedValue.value (some fun grid => grid ≥ 0)
          else
            aggregateByDay tzOffset TimedValue.timestamp consumptionReadings
              TimedValue.value (some fun grid => grid ≥ 0)
        let feedInAggregated :=
          if timeframe = "day" ∨ timeframe = "yesterday" then
            aggregateByHour tzOffset TimedValue.timestamp feedInReadings
              TimedValue.value (some fun grid => grid > 0)
          else
            aggregateByDay tzOffset TimedValue.timestamp feedInReadings
              TimedValue.value (some fun grid => grid > 0)
        .both ⟨⟨consumptionAggregated, consumptionTotal⟩, ⟨feedInAggregated, feedInTotal⟩⟩
    | .car =>
        let carReadings := readings.map fun r => TimedValue.mk r.timestamp r.car
        let total := calculateTotalEnergy TimedValue.timestamp carReadings
          TimedValue.value (some fun car => car > 0)
        let aggregated :=
          if timeframe = "day" ∨ timeframe = "yesterday" then
            aggregateByHour tzOffset TimedValue.timestamp carReadings
              TimedValue.value (some fun car => car > 0)
          else
            aggregateByDay tzOffset TimedValue.timestamp carReadings
              TimedValue.value (some fun car => car > 0)
        .single ⟨aggregated, total⟩
    | .solar =>
        let solarReadings := readings.map fun r => TimedValue.mk r.timestamp r.solar
        let total := calculateTotalEnergy TimedValue.timestamp solarReadings
          TimedValue.value (some fun solar => solar > 0)
        let aggregated :=
          if timeframe = "day" ∨ timeframe = "yesterday" then
            aggregateByHour tzOffset TimedValue.timestamp solarReadings
              TimedValue.value (some fun solar => solar > 0)
          else
            aggregateByDay tzOffset TimedValue.timestamp solarReadings
              TimedValue.value (some fun solar => solar > 0)
        .single ⟨aggregated, total⟩

/-- `EnergyRepository.getEnergyReadingsForRange`: `timestamp ∈ [from, to]`
    (gte/lte), ascending. -/
def getEnergyReadingsForRange (store : List EnergyReading) (fromTs toTs : ℤ) :
    List EnergyReading :=
  sortByTimestamp EnergyReading.timestamp
    (store.filter fun r => fromTs ≤ r.timestamp ∧ r.timestamp ≤ toTs)

/-- `EnergyBucketRepository.getBucketsForRange`: `bucket_start ∈ [from, to)`
    (gte/lt), ascending by `bucket_start`. -/
def getBucketsForRange (store : List EnergyBucket) (fromTs toTs : ℤ) :
    List EnergyBucket :=
  (store.filter fun b => fromTs ≤ b.bucket_start ∧ b.bucket_start < toTs).mergeSort
    fun a b => a.bucket_start ≤ b.bucket_start

/-- `EnergyBucketRepository.getFirstReadingBefore`: latest reading strictly
    before `timestamp`. -/
def getFirstReadingBefore (store : List EnergyReading) (timestamp : ℤ) :
    Option EnergyReading :=
  ((store.filter fun r => r.timestamp < timestamp).mergeSort
    fun a b => b.timestamp ≤ a.timestamp).head?

/-- `EnergyBucketRepository.getFirstReadingAfter`: earliest reading strictly
    after `timestamp`. -/
def getFirstReadingAfter (store : List EnergyReading) (timestamp : ℤ) :
    Option EnergyReading :=
  (sortByTimestamp EnergyReading.timestamp
    (store.filter fun r => timestamp < r.timestamp)).head?

/-- `EnergyService.aggregateEnergyDataFromBuckets`: round `from`/`to` down to
    minutes, fetch full buckets in `[fullBucketStart, fullBucketEnd)`, fetch
    raw readings for the partial boundary minutes (with a one-reading anchor
    outside each partial edge), turn each bucket into its stored first and
    last samples, sort everything, and reuse `aggregateEnergyData`.  Both
    timeframe branches of the source fetch the same 1-minute buckets. -/
def aggregateEnergyDataFromBuckets (tzOffset : ℤ) (readingStore : List EnergyReading)
    (bucketStore : List EnergyBucket) (fromTs toTs : ℤ) (timeframe : String)
    (etype : EnergyType) : AggregationResult :=
  let firstBucketStart := fromTs / 60 * 60
  let lastBucketStart := toTs / 60 * 60
  let needsPartialFirst := firstBucketStart < fromTs
  let needsPartialLast := lastBucketStart < toTs
  let fullBucketStart := if needsPartialFirst then firstBucketStart + 60 else firstBucketStart
  let fullBucketEnd := if needsPartialLast then lastBucketStart else lastBucketStart + 60
  let buckets :=
    if fullBucketStart < fullBucketEnd then
      getBucketsForRange bucketStore fullBucketStart fullBucketEnd
    else []
  let partialFirstReadings :=
    if needsPartialFirst then
      let readingsInRange := getEnergyReadingsForRange readingStore
        (max firstBucketStart (fromTs - 300)) (min (firstBucketStart + 60) toTs)
      match getFirstReadingBefore readingStore fromTs with
      | some readingBefore => readingBefore :: readingsInRange
      | none => readingsInRange
    else []
  let partialLastReadings :=
    if needsPartialLast ∧ lastBucketStart ≠ firstBucketStart then
      let readingsInRange := getEnergyReadingsForRange readingStore lastBucketStart toTs
      match getFirstReadingAfter readingStore toTs with
      | some readingAfter => readingsInRange ++ [readingAfter]
      | none => readingsInRange
    else []
  let bucketReadings : List EnergyReading := buckets.foldr
    (fun b acc =>
      ⟨0, b.first_timestamp, b.first_home, b.first_grid, b.first_car, b.first_solar, 0⟩ ::
        ⟨0, b.last_timestamp, b.last_home, b.last_grid, b.last_car, b.last_solar, 0⟩ :: acc)
    []
  let allReadings := sortByTimestamp EnergyReading.timestamp
    (partialFirstReadings ++ bucketReadings ++ partialLastReadings)
  aggregateEnergyData tzOffset allReadings timeframe etype

/-- `EnergyService.getAggregatedEnergyData` with both repositories available:
    serve a cache hit verbatim, otherwise pick the bucket-assisted path iff
    `to - from ≥ 3600` and the raw path otherwise. -/
def getAggregatedEnergyData (tzOffset : ℤ) (cached : Option AggregationResult)
    (readingStore : List EnergyReading) (bucketStore : List EnergyBucket)
    (fromTs toTs : ℤ) (timeframe : String) (etype : EnergyType) : AggregationResult :=
  match cached with
  | some result => result
  | none =>
      let timeRangeSeconds := toTs - fromTs
      let useBuckets := timeRangeSeconds ≥ 3600
      if useBuckets then
        aggregateEnergyDataFromBuckets tzOffset readingStore bucketStore fromTs toTs
          timeframe etype
      else
        aggregateEnergyData tzOffset (getEnergyReadingsForRange readingStore fromTs toTs)
          timeframe etype

/-- `status: 'running' | 'completed' | 'error'` of the aggregation job row. -/
inductive JobStatus where
  | running
  | completed
  | error
deriving DecidableEq

/-- The singleton `energyBucketAggregationJob` row (id 1). -/
structure JobRow where
  last_processed_timestamp : ℤ
  last_run_at : ℤ
  status : JobStatus
deriving DecidableEq

/-- Database state seen by `EnergyAggregationJob`: raw readings (never written
    here), the bucket table keyed by `bucket_start`, and the job row. -/
structure DB where
  readings : List EnergyReading
  buckets : List EnergyBucket
  job : Option JobRow
deriving DecidableEq

/-- Prisma `upsert` keyed by `bucket_start`: replace the row in place if the
    key exists (the `update` branch rewrites every field), else insert. -/
def upsertBucket (b : EnergyBucket) : List EnergyBucket → List EnergyBucket
  | [] => [b]
  | x :: rest =>
      if x.bucket_start = b.bucket_start then b :: rest
      else x :: upsertBucket b rest

/-- The per-channel kWh accumulation loop of `aggregateMinuteBucket`:
    `kwh += ((p1 + p2) / 2) * dt / 3600 / 1000` over adjacent pairs. -/
def channelKwh (extractor : EnergyReading → ℚ) : List EnergyReading → ℚ
  | r1 :: r2 :: rest =>
      (extractor r1 + extractor r2) / 2 * ((r2.timestamp : ℚ) - (r1.timestamp : ℚ)) / 3600 / 1000
        + channelKwh extractor (r2 :: rest)
  | _ => 0

/-- The bucket row written by `aggregateMinuteBucket` for `bucketStart` from
    the minute's ascending readings with the given first and last element. -/
def mkBucketRow (bucketStart : ℤ) (readings : List EnergyReading)
    (firstReading lastReading : EnergyReading) : EnergyBucket :=
  { bucket_start := bucketStart
    bucket_end := bucketStart + 60
    home_kwh := channelKwh EnergyReading.home readings
    grid_kwh := channelKwh EnergyReading.grid readings
    car_kwh := channelKwh EnergyReading.car readings
    solar_kwh := channelKwh EnergyReading.solar readings
    readings_count := readings.length
    first_timestamp := firstReading.timestamp
    last_timestamp := lastReading.timestamp
    first_home := firstReading.home
    first_grid := firstReading.grid
    first_car := firstReading.car
    first_solar := firstReading.solar
    last_home := lastReading.home
    last_grid := lastReading.grid
    last_car := lastReading.car
    last_solar := lastReading.solar }

/-- `EnergyAggregationJob.aggregateMinuteBucket`: fetch the minute's readings
    (`[bucketStart, bucketStart + 60)`, ascending); with fewer than 2 readings
    do nothing, else upsert the integrated row.  The source's
    `readings.length < 2` early return and its `readings[0]` /
    `readings[readings.length - 1]` accesses are expressed as a match on the
    fetched list. -/
def aggregateMinuteBucket (bucketStart : ℤ) (db : DB) : DB :=
  let readings := sortByTimestamp EnergyReading.timestamp
    (db.readings.filter fun r => bucketStart ≤ r.timestamp ∧ r.timestamp < bucketStart + 60)
  match readings with
  | r1 :: r2 :: rest =>
      let lastReading := (r2 :: rest).getLast (List.cons_ne_nil _ _)
      { db with
          buckets := upsertBucket (mkBucketRow bucketStart (r1 :: r2 :: rest) r1 lastReading)
            db.buckets }
  | _ => db

/-- Applies an update to the job row if it exists (Prisma `update` on id 1). -/
def setJob (f : JobRow → JobRow) (db : DB) : DB :=
  { db with job := db.job.map f }

/-- The earliest reading (`findFirst` ordered by timestamp ascending). -/
def earliestReadingTimestamp (readings : List EnergyReading) : Option ℤ :=
  (sortByTimestamp EnergyReading.timestamp readings).head?.map EnergyReading.timestamp

/-- The `while (currentBucketStart < nowBucketStart)` loop of `processLatest`.
    `failAt = some i` models `aggregateMinuteBucket` throwing an exception on
    the i-th iteration (counting from 0); the checkpoint is persisted after
    every 10th processed bucket (the source writes `currentBucketStart - 60`
    after incrementing, i.e. the just-processed bucket).  Returns the state,
    the final `currentBucketStart`, and whether the loop ran to completion. -/
def bucketLoop (nowBucketStart : ℤ) (failAt : Option ℕ) (db : DB)
    (currentBucketStart : ℤ) (processedCount : ℕ) : DB × ℤ × Bool :=
  if currentBucketStart < nowBucketStart then
    if failAt = some processedCount then (db, currentBucketStart, false)
    else
      let db1 := aggregateMinuteBucket currentBucketStart db
      let processed1 := processedCount + 1
      let db2 :=
        if processed1 % 10 = 0 then
          setJob (fun j => { j with last_processed_timestamp := currentBucketStart }) db1
        else db1
      bucketLoop nowBucketStart failAt db2 (currentBucketStart + 60) processed1
  else (db, currentBucketStart, true)
termination_by (nowBucketStart - currentBucketStart).toNat
decreasing_by omega

/-- `EnergyAggregationJob.processLatest`: seed the job row on first run (from
    the earliest reading's minute, or `nowBucketStart - 86400` with no
    readings), mark it running, roll up every complete minute after the
    checkpoint, then either write the final checkpoint with status
    `completed`, or — when an iteration throws — set status `error`, keep the
    checkpoint at its last persisted value, and propagate the failure
    (returned as `false`). -/
def seedStart (now : ℤ) (readings : List EnergyReading) : ℤ :=
  match earliestReadingTimestamp readings with
  | some t => t / 60 * 60
  | none => now / 60 * 60 - 86400

def processLatest (now : ℤ) (failAt : Option ℕ) (db : DB) : DB × Bool :=
  let nowBucketStart := now / 60 * 60
  let seeded : JobRow × DB :=
    match db.job with
    | some j => (j, db)
    | none =>
        let j : JobRow := ⟨seedStart now db.readings, now, JobStatus.running⟩
        (j, { db with job := some j })
  let jobStatus := seeded.1
  let lastProcessed := jobStatus.last_processed_timestamp
  let db1 := setJob (fun j => { j with status := JobStatus.running, last_run_at := now }) seeded.2
  match bucketLoop nowBucketStart failAt db1 (lastProcessed + 60) 0 with
  | (db2, currentFinal, true) =>
      (setJob (fun _ => ⟨currentFinal - 60, now, JobStatus.completed⟩) db2, true)
  | (db2, _, false) =>
      (setJob (fun j => { j with status := JobStatus.error, last_run_at := now }) db2, false)

/-- N equally spaced readings at constant power `P`, spacing `d`, start `t0`. -/
def constReadings (t0 d : ℤ) (P : ℚ) (n : ℕ) : List TimedValue :=
  (List.range n).map fun i : ℕ => ⟨t0 + (i : ℤ) * d, P⟩

/-- A stored bucket whose minute starts exactly at the minute-aligned `to`
    of a query range `[0, 3600]`: its stored samples lie at timestamps 3600
    and 3659, entirely outside that range (1000 W solar at both). -/
def bucketAtAlignedTo : EnergyBucket :=
  ⟨3600, 3660, 0, 0, 0, 0, 2, 3600, 3659, 0, 0, 0, 1000, 0, 0, 0, 1000⟩

/-! ## Lemmas about the stable sort model -/

theorem sortByTimestamp_perm {T : Type} (tsOf : T → ℤ) (l : List T) :
    (sortByTimestamp tsOf l).Perm l :=
  List.mergeSort_perm l _

theorem sortByTimestamp_length {T : Type} (tsOf : T → ℤ) (l : List T) :
    (sortByTimestamp tsOf l).length = l.length :=
  (sortByTimestamp_perm tsOf l).length_eq

theorem sortByTimestamp_sorted {T : Type} (tsOf : T → ℤ) (l : List T) :
    (sortByTimestamp tsOf l).Pairwise fun a b => tsOf a ≤ tsOf b := by
  have h := @List.sorted_mergeSort T (fun a b : T => decide (tsOf a ≤ tsOf b))
    (fun a b c hab hbc => by
      simp only [decide_eq_true_eq] at *
      exact le_trans hab hbc)
    (fun a b => by
      simp only [Bool.or_eq_true, decide_eq_true_eq]
      exact Int.le_total (tsOf a) (tsOf b))
    l
  exact h.imp fun hab => by simpa using hab

theorem sortByTimestamp_of_sorted {T : Type} {tsOf : T → ℤ} {l : List T}
    (h : l.Pairwise fun a b => tsOf a ≤ tsOf b) :
    sortByTimestamp tsOf l = l :=
  List.mergeSort_of_sorted (h.imp fun hab => by simpa using hab)

/-- Two permutations with pairwise-distinct timestamps sort identically. -/
theorem sortByTimestamp_eq_of_perm {T : Type} {tsOf : T → ℤ} {l₁ l₂ : List T}
    (hperm : l₁.Perm l₂) (hne : l₁.Pairwise fun a b => tsOf a ≠ tsOf b) :
    sortByTimestamp tsOf l₁ = sortByTimestamp tsOf l₂ := by
  haveI : IsAntisymm T fun a b => tsOf a < tsOf b :=
    ⟨fun a b h1 h2 => absurd (h1.trans h2) (lt_irrefl _)⟩
  have hp : (sortByTimestamp tsOf l₁).Perm (sortByTimestamp tsOf l₂) :=
    ((sortByTimestamp_perm tsOf l₁).trans hperm).trans (sortByTimestamp_perm tsOf l₂).symm
  have hsymm : ∀ {x y : T}, tsOf x ≠ tsOf y → tsOf y ≠ tsOf x := fun h => h.symm
  have hne₁ : (sortByTimestamp tsOf l₁).Pairwise fun a b => tsOf a ≠ tsOf b :=
    ((sortByTimestamp_perm tsOf l₁).pairwise_iff hsymm).mpr hne
  have hne₂ : (sortByTimestamp tsOf l₂).Pairwise fun a b => tsOf a ≠ tsOf b :=
    (hp.pairwise_iff hsymm).mp hne₁
  have hs₁ : (sortByTimestamp tsOf l₁).Pairwise fun a b => tsOf a < tsOf b :=
    ((sortByTimestamp_sorted tsOf l₁).and hne₁).imp fun hab =>
      lt_of_le_of_ne hab.1 hab.2
  have hs₂ : (sortByTimestamp tsOf l₂).Pairwise fun a b => tsOf a < tsOf b :=
    ((sortByTimestamp_sorted tsOf l₂).and hne₂).imp fun hab =>
      lt_of_le_of_ne hab.1 hab.2
  exact List.eq_of_perm_of_sorted hp hs₁ hs₂

/-! ## Constant-power integration (C1) -/

theorem constReadings_succ (t0 d : ℤ) (P : ℚ) (n : ℕ) :
    constReadings t0 d P (n + 1) = ⟨t0, P⟩ :: constReadings (t0 + d) d P n := by
  simp only [constReadings, List.range_succ_eq_map, List.map_cons, List.map_map]
  congr 1
  · simp
  · apply List.map_congr_left
    intro i _
    simp only [Function.comp_apply]
    congr 1
    push_cast
    ring

theorem trapezoidWh_constReadings (d : ℤ) (P : ℚ) :
    ∀ (n : ℕ) (t0 : ℤ), 1 ≤ n →
      trapezoidWh TimedValue.timestamp TimedValue.value (constReadings t0 d P n)
        = P * ((n : ℚ) - 1) * (d : ℚ) / 3600
  | 1, t0, _ => by
      simp [constReadings, trapezoidWh]
  | (n + 2), t0, _ => by
      have ih := trapezoidWh_constReadings d P (n + 1) (t0 + d) (by omega)
      rw [constReadings_succ] at ih ⊢
      rw [constReadings_succ]
      simp only [trapezoidWh] at ih ⊢
      rw [ih]
      push_cast
      ring

theorem constReadings_sorted (t0 d : ℤ) (P : ℚ) (n : ℕ) (hd : 0 ≤ d) :
    (constReadings t0 d P n).Pairwise fun a b => a.timestamp ≤ b.timestamp := by
  rw [constReadings, List.pairwise_map]
  refine (List.pairwise_lt_range n).imp ?_
  intro i j hij
  have h2 : (i : ℤ) ≤ (j : ℤ) := by exact_mod_cast le_of_lt hij
  have h3 : (i : ℤ) * d ≤ (j : ℤ) * d := mul_le_mul_of_nonneg_right h2 hd
  show t0 + (i : ℤ) * d ≤ t0 + (j : ℤ) * d
  exact add_le_add_left h3 t0

theorem calculateTotalEnergy_filter_all {T : Type} (tsOf : T → ℤ) (extractor : T → ℚ)
    (l : List T) (filterFn : Option (ℚ → Bool))
    (hf : ∀ g ∈ filterFn, ∀ r ∈ l, g (extractor r) = true) :
    calculateTotalEnergy tsOf l extractor filterFn =
      calculateTotalEnergy tsOf l extractor none := by
  cases filterFn with
  | none => rfl
  | some g =>
      simp only [calculateTotalEnergy]
      rw [List.filter_eq_self.mpr fun r hr => hf g rfl r hr]

/-- C1: for every N ≥ 2 equally-spaced readings all carrying the same power
    `P` watts and spanning total duration `T = (N-1)·d` seconds,
    `calculateTotalEnergy` (with no filter, or a filter that keeps all of
    them) returns exactly `P·T/3600/1000` kWh. -/
theorem C1_constant_power_integration (t0 d : ℤ) (P : ℚ) (n : ℕ)
    (filterFn : Option (ℚ → Bool)) (hn : 2 ≤ n) (hd : 0 ≤ d)
    (hf : ∀ g ∈ filterFn, g P = true) :
    calculateTotalEnergy TimedValue.timestamp (constReadings t0 d P n)
      TimedValue.value filterFn
      = P * (((n : ℚ) - 1) * (d : ℚ)) / 3600 / 1000 := by
  have hvals : ∀ x ∈ constReadings t0 d P n, x.value = P := by
    intro x hx
    simp only [constReadings, List.mem_map] at hx
    obtain ⟨i, _, rfl⟩ := hx
    rfl
  rw [calculateTotalEnergy_filter_all _ _ _ _
    (fun g hg r hr => by rw [hvals r hr]; exact hf g hg)]
  have hlen : (constReadings t0 d P n).length = n := by
    rw [constReadings, List.length_map, List.length_range]
  simp only [calculateTotalEnergy]
  rw [if_neg (by omega), if_neg (by omega)]
  rw [sortByTimestamp_of_sorted (constReadings_sorted t0 d P n hd)]
  rw [trapezoidWh_constReadings d P n t0 (by omega)]
  ring

/-- Witness for C1 at `n = 3`, `d = 600`, `P = 500`, no filter. -/
theorem C1_constant_power_integration_witness :
    (2 ≤ 3 ∧ (0 : ℤ) ≤ 600 ∧ ∀ g ∈ (none : Option (ℚ → Bool)), g 500 = true) ∧
      calculateTotalEnergy TimedValue.timestamp (constReadings 0 600 500 3)
        TimedValue.value none
        = 500 * (((3 : ℚ) - 1) * ((600 : ℤ) : ℚ)) / 3600 / 1000 :=
  ⟨⟨by norm_num, by norm_num, by simp⟩,
    C1_constant_power_integration 0 600 500 3 none (by norm_num) (by norm_num) (by simp)⟩

/-! ## Order insensitivity of the total-energy integrator (C10) -/

/-- C10: `calculateTotalEnergy` is order-insensitive: on inputs with
    pairwise-distinct timestamps, every permutation of the reading list gives
    the same kWh value (the source sorts a copy of the filtered list, so
    callers need not pre-sort; in this pure model the caller's list is
    trivially left untouched). -/
theorem C10_calculateTotalEnergy_order_insensitive {T : Type} (tsOf : T → ℤ)
    (extractor : T → ℚ) (filterFn : Option (ℚ → Bool)) (l₁ l₂ : List T)
    (hperm : l₁.Perm l₂) (hne : l₁.Pairwise fun a b => tsOf a ≠ tsOf b) :
    calculateTotalEnergy tsOf l₁ extractor filterFn =
      calculateTotalEnergy tsOf l₂ extractor filterFn := by
  cases filterFn with
  | none =>
      have hsort := sortByTimestamp_eq_of_perm hperm hne
      simp only [calculateTotalEnergy, hperm.length_eq, hsort]
  | some g =>
      have hpf : (l₁.filter fun r => g (extractor r)).Perm
          (l₂.filter fun r => g (extractor r)) := hperm.filter _
      have hnef : (l₁.filter fun r => g (extractor r)).Pairwise
          fun a b => tsOf a ≠ tsOf b :=
        List.Pairwise.sublist (List.filter_sublist l₁) hne
      have hsort := sortByTimestamp_eq_of_perm hpf hnef
      simp only [calculateTotalEnergy, hperm.length_eq, hpf.length_eq, hsort]

/-- Witness for C10: swapping two distinct-timestamp readings. -/
theorem C10_calculateTotalEnergy_order_insensitive_witness :
    (([⟨600, 5⟩, ⟨0, 3⟩] : List TimedValue).Perm [⟨0, 3⟩, ⟨600, 5⟩] ∧
      ([⟨600, 5⟩, ⟨0, 3⟩] : List TimedValue).Pairwise
        fun a b => a.timestamp ≠ b.timestamp) ∧
    calculateTotalEnergy TimedValue.timestamp ([⟨600, 5⟩, ⟨0, 3⟩] : List TimedValue)
        TimedValue.value none =
      calculateTotalEnergy TimedValue.timestamp ([⟨0, 3⟩, ⟨600, 5⟩] : List TimedValue)
        TimedValue.value none :=
  ⟨⟨List.Perm.swap _ _ _, by simp⟩,
    C10_calculateTotalEnergy_order_insensitive TimedValue.timestamp TimedValue.value
      none _ _ (List.Perm.swap _ _ _) (by simp)⟩

/-! ## Tiered pricing (C4, C9) -/

/-- The in-order scan of `calculateConsumptionCost` returns the price of the
    first period satisfying the spec's match predicate. -/
theorem scanPeriods_eq_find (minutes : ℤ) :
    ∀ periods : List ConsumingPricePeriod,
      scanPeriods minutes periods
        = (periods.find? (periodMatches minutes)).map ConsumingPricePeriod.price
  | [] => rfl
  | p :: rest => by
      rw [scanPeriods]
      by_cases h1 : p.start_time ≤ minutes ∧ minutes < p.end_time
      · rw [if_pos h1, List.find?_cons_of_pos _ (by simp [periodMatches]; omega)]
        rfl
      · rw [if_neg h1]
        by_cases h2 : p.start_time > p.end_time ∧
            (minutes ≥ p.start_time ∨ minutes < p.end_time)
        · rw [if_pos h2, List.find?_cons_of_pos _ (by simp [periodMatches]; omega)]
          rfl
        · rw [if_neg h2, List.find?_cons_of_neg _ (by simp [periodMatches]; omega)]
          exact scanPeriods_eq_find minutes rest

/-- C4: with positive kWh and a schedule, the cost is `kwh` times the price
    of the first period matching the minute of local day, where a period
    matches iff `start ≤ m < end` or, wrapping midnight (`start > end`),
    `m ≥ start ∨ m < end`; in particular the period `{start=1320, end=360}`
    matches minute 60 and minute 1380 but not minute 700. -/
theorem C4_first_matching_period_pricing (tzOffset : ℤ) (kwh : ℚ) (timestamp : ℤ)
    (s : EnergySettings) (periods : List ConsumingPricePeriod) (p : ConsumingPricePeriod)
    (hk : 0 < kwh) (hp : s.consuming_periods = some periods)
    (hfind : periods.find? (periodMatches (localMinuteOfDay tzOffset timestamp)) = some p) :
    calculateConsumptionCost tzOffset kwh timestamp (some s) = kwh * p.price ∧
      periodMatches 60 ⟨0, 0, 1320, 360, 1⟩ = true ∧
      periodMatches 1380 ⟨0, 0, 1320, 360, 1⟩ = true ∧
      periodMatches 700 ⟨0, 0, 1320, 360, 1⟩ = false := by
  refine ⟨?_, by decide, by decide, by decide⟩
  simp only [calculateConsumptionCost, hp]
  rw [if_neg (not_le.mpr hk), scanPeriods_eq_find, hfind]
  rfl

/-- Witness for C4: kWh 2 at 01:00 UTC with a wrap-around period first. -/
theorem C4_first_matching_period_pricing_witness :
    (0 < (2 : ℚ) ∧
      (EnergySettings.mk 1 0 0 none
          (some [⟨0, 0, 1320, 360, 7⟩, ⟨0, 0, 600, 720, 9⟩])).consuming_periods
        = some [⟨0, 0, 1320, 360, 7⟩, ⟨0, 0, 600, 720, 9⟩] ∧
      ([⟨0, 0, 1320, 360, 7⟩, ⟨0, 0, 600, 720, 9⟩] : List ConsumingPricePeriod).find?
          (periodMatches (localMinuteOfDay 0 3600))
        = some ⟨0, 0, 1320, 360, 7⟩) ∧
    calculateConsumptionCost 0 2 3600
        (some (EnergySettings.mk 1 0 0 none
          (some [⟨0, 0, 1320, 360, 7⟩, ⟨0, 0, 600, 720, 9⟩])))
      = 2 * (ConsumingPricePeriod.mk 0 0 1320 360 7).price ∧
      periodMatches 60 ⟨0, 0, 1320, 360, 1⟩ = true ∧
      periodMatches 1380 ⟨0, 0, 1320, 360, 1⟩ = true ∧
      periodMatches 700 ⟨0, 0, 1320, 360, 1⟩ = false :=
  ⟨⟨by norm_num, rfl, by decide⟩,
    C4_first_matching_period_pricing 0 2 3600 _ _ _ (by norm_num) rfl (by decide)⟩

/-- C9: with positive kWh, a non-empty schedule, and a minute of day matching
    no period (a gap), the cost falls back to the first period's price. -/
theorem C9_gap_falls_back_to_first_period (tzOffset : ℤ) (kwh : ℚ) (timestamp : ℤ)
    (s : EnergySettings) (p0 : ConsumingPricePeriod) (rest : List ConsumingPricePeriod)
    (hk : 0 < kwh) (hp : s.consuming_periods = some (p0 :: rest))
    (hgap : ∀ p ∈ p0 :: rest,
      periodMatches (localMinuteOfDay tzOffset timestamp) p = false) :
    calculateConsumptionCost tzOffset kwh timestamp (some s) = kwh * p0.price := by
  simp only [calculateConsumptionCost, hp]
  rw [if_neg (not_le.mpr hk), scanPeriods_eq_find,
    List.find?_eq_none.mpr fun x hx => by rw [hgap x hx]; exact Bool.false_ne_true]
  simp

/-- Witness for C9: minute 700 falls in no period of `[0, 60)@5`. -/
theorem C9_gap_falls_back_to_first_period_witness :
    (0 < (2 : ℚ) ∧
      (EnergySettings.mk 1 0 0 none (some [⟨0, 0, 0, 60, 5⟩])).consuming_periods
        = some [⟨0, 0, 0, 60, 5⟩] ∧
      ∀ p ∈ ([⟨0, 0, 0, 60, 5⟩] : List ConsumingPricePeriod),
        periodMatches (localMinuteOfDay 0 42000) p = false) ∧
    calculateConsumptionCost 0 2 42000
        (some (EnergySettings.mk 1 0 0 none (some [⟨0, 0, 0, 60, 5⟩])))
      = 2 * (ConsumingPricePeriod.mk 0 0 0 60 5).price :=
  ⟨⟨by norm_num, rfl, by decide⟩,
    C9_gap_falls_back_to_first_period 0 2 42000 _ _ _ (by norm_num) rfl (by decide)⟩

/-! ## Sparse minutes (C7) and idempotent rollup (C6) -/

theorem aggregateMinuteBucket_of_sparse (bucketStart : ℤ) (db : DB)
    (hsparse : (db.readings.filter fun r =>
      bucketStart ≤ r.timestamp ∧ r.timestamp < bucketStart + 60).length < 2) :
    aggregateMinuteBucket bucketStart db = db := by
  have hlen : (sortByTimestamp EnergyReading.timestamp (db.readings.filter fun r =>
      bucketStart ≤ r.timestamp ∧ r.timestamp < bucketStart + 60)).length < 2 := by
    rw [sortByTimestamp_length]; exact hsparse
  rcases hml : sortByTimestamp EnergyReading.timestamp (db.readings.filter fun r =>
      bucketStart ≤ r.timestamp ∧ r.timestamp < bucketStart + 60) with _ | ⟨r1, _ | ⟨r2, rest⟩⟩
  · simp only [aggregateMinuteBucket]
    rw [hml]
  · simp only [aggregateMinuteBucket]
    rw [hml]
  · rw [hml] at hlen
    simp at hlen
    omega

/-- C7: a minute with fewer than 2 raw readings writes no bucket row (the
    store is unchanged), and a raw-path total over a window with fewer than 2
    surviving readings returns 0 kWh rather than an error. -/
theorem C7_sparse_minute_no_row_and_zero_total {T : Type} (bucketStart : ℤ) (db : DB)
    (tsOf : T → ℤ) (extractor : T → ℚ) (g : ℚ → Bool) (readings : List T)
    (hsparse : (db.readings.filter fun r =>
      bucketStart ≤ r.timestamp ∧ r.timestamp < bucketStart + 60).length < 2)
    (hfew : (readings.filter fun r => g (extractor r)).length < 2) :
    aggregateMinuteBucket bucketStart db = db ∧
      calculateTotalEnergy tsOf readings extractor (some g) = 0 := by
  refine ⟨aggregateMinuteBucket_of_sparse bucketStart db hsparse, ?_⟩
  simp only [calculateTotalEnergy]
  by_cases h : readings.length < 2
  · rw [if_pos h]
  · rw [if_neg h, if_pos hfew]

/-- Witness for C7: one reading in the minute; two readings all filtered out. -/
theorem C7_sparse_minute_no_row_and_zero_total_witness :
    ((((DB.mk [⟨1, 30, 100, 0, 0, 0, 0⟩] [] none).readings.filter fun r =>
        0 ≤ r.timestamp ∧ r.timestamp < 0 + 60).length < 2) ∧
      ((([⟨0, -5⟩, ⟨10, -6⟩] : List TimedValue).filter fun r =>
        decide (r.value > 0)).length < 2)) ∧
    aggregateMinuteBucket 0 (DB.mk [⟨1, 30, 100, 0, 0, 0, 0⟩] [] none)
        = DB.mk [⟨1, 30, 100, 0, 0, 0, 0⟩] [] none ∧
      calculateTotalEnergy TimedValue.timestamp ([⟨0, -5⟩, ⟨10, -6⟩] : List TimedValue)
        TimedValue.value (some fun v => decide (v > 0)) = 0 :=
  ⟨⟨by decide, by decide⟩,
    C7_sparse_minute_no_row_and_zero_total 0 _ TimedValue.timestamp TimedValue.value
      _ _ (by decide) (by decide)⟩

theorem upsertBucket_idem (b : EnergyBucket) :
    ∀ l : List EnergyBucket, upsertBucket b (upsertBucket b l) = upsertBucket b l
  | [] => by simp [upsertBucket]
  | x :: rest => by
      by_cases h : x.bucket_start = b.bucket_start
      · simp [upsertBucket, h]
      · simp only [upsertBucket, if_neg h]
        rw [upsertBucket_idem b rest]

theorem aggregateMinuteBucket_idem (bucketStart : ℤ) (db : DB) :
    aggregateMinuteBucket bucketStart (aggregateMinuteBucket bucketStart db) =
      aggregateMinuteBucket bucketStart db := by
  rcases hml : sortByTimestamp EnergyReading.timestamp (db.readings.filter fun r =>
      bucketStart ≤ r.timestamp ∧ r.timestamp < bucketStart + 60) with _ | ⟨r1, _ | ⟨r2, rest⟩⟩
  · have h1 : aggregateMinuteBucket bucketStart db = db := by
      simp only [aggregateMinuteBucket]
      rw [hml]
    rw [h1]
    exact h1
  · have h1 : aggregateMinuteBucket bucketStart db = db := by
      simp only [aggregateMinuteBucket]
      rw [hml]
    rw [h1]
    exact h1
  · have h1 : aggregateMinuteBucket bucketStart db =
        { db with buckets := (upsertBucket (mkBucketRow bucketStart (r1 :: r2 :: rest) r1 ((r2 :: rest).getLast (List.cons_ne_nil _ _))) db.buckets) } := by
      simp only [aggregateMinuteBucket]
      rw [hml]
    rw [h1]
    simp only [aggregateMinuteBucket]
    rw [hml]
    simp only [upsertBucket_idem]

/-- C6: `aggregateMinuteBucket` is idempotent: over unchanged raw readings,
    any number (n+1 ≥ 1) of invocations for the same minute leaves the store
    in the state of a single invocation, the upserted row identical field for
    field. -/
theorem C6_aggregateMinuteBucket_idempotent (bucketStart : ℤ) (db : DB) (n : ℕ) :
    (aggregateMinuteBucket bucketStart)^[n + 1] db = aggregateMinuteBucket bucketStart db := by
  induction n with
  | zero => rfl
  | succ m ih =>
      rw [Function.iterate_succ_apply', ih, aggregateMinuteBucket_idem]

/-! ## Strategy selection (C8) -/

/-- C8: with both repositories available and a cache miss,
    `getAggregatedEnergyData` takes the bucket-assisted path exactly when
    `to - from ≥ 3600` seconds, and otherwise fetches the raw readings in
    `[from, to]` and aggregates them directly with the integrator-based
    `aggregateEnergyData`. -/
theorem C8_strategy_selection (tzOffset : ℤ) (readingStore : List EnergyReading)
    (bucketStore : List EnergyBucket) (fromTs toTs : ℤ) (timeframe : String)
    (etype : EnergyType) :
    (3600 ≤ toTs - fromTs →
      getAggregatedEnergyData tzOffset none readingStore bucketStore fromTs toTs
          timeframe etype
        = aggregateEnergyDataFromBuckets tzOffset readingStore bucketStore fromTs toTs
            timeframe etype) ∧
    (toTs - fromTs < 3600 →
      getAggregatedEnergyData tzOffset none readingStore bucketStore fromTs toTs
          timeframe etype
        = aggregateEnergyData tzOffset (getEnergyReadingsForRange readingStore fromTs toTs)
            timeframe etype) := by
  constructor
  · intro h
    simp only [getAggregatedEnergyData]
    rw [if_pos h]
  · intro h
    simp only [getAggregatedEnergyData]
    rw [if_neg (not_le.mpr h)]

/-- Witness for C8: a one-hour range takes the bucket path, a 100 s range the
    raw path. -/
theorem C8_strategy_selection_witness :
    ((3600 : ℤ) ≤ 3600 - 0 ∧
      getAggregatedEnergyData 0 none [] [] 0 3600 "day" EnergyType.car
        = aggregateEnergyDataFromBuckets 0 [] [] 0 3600 "day" EnergyType.car) ∧
    ((100 : ℤ) - 0 < 3600 ∧
      getAggregatedEnergyData 0 none [] [] 0 100 "day" EnergyType.car
        = aggregateEnergyData 0 (getEnergyReadingsForRange [] 0 100) "day" EnergyType.car) :=
  ⟨⟨by norm_num, (C8_strategy_selection 0 [] [] 0 3600 "day" EnergyType.car).1 (by norm_num)⟩,
    ⟨by norm_num, (C8_strategy_selection 0 [] [] 0 100 "day" EnergyType.car).2 (by norm_num)⟩⟩

/-! ## Grid split example (C5) -/

theorem sortByTimestamp_singleton {T : Type} (tsOf : T → ℤ) (x : T) :
    sortByTimestamp tsOf [x] = [x] :=
  sortByTimestamp_of_sorted (List.pairwise_singleton _ _)

/-- C5: for the two grid readings −500 W at t = 0 and −600 W at t = 600 s,
    `aggregateEnergyData` with type `grid` (timeframe `day`) returns feed-in
    total `((500+600)/2·600)/3600/1000 = 11/120 ≈ 0.0917` kWh and consumption
    total 0. -/
theorem C5_grid_split_example (tzOffset : ℤ) :
    aggregateEnergyData tzOffset
        [⟨1, 0, 0, -500, 0, 0, 0⟩, ⟨2, 600, 0, -600, 0, 0, 0⟩] "day" EnergyType.grid
      = AggregationResult.both
          ⟨⟨[], 0⟩, ⟨[⟨hourLabel tzOffset 0, 11 / 120, 0⟩], 11 / 120⟩⟩ := by
  have hs2 : sortByTimestamp TimedValue.timestamp [⟨0, (500 : ℚ)⟩, ⟨600, 600⟩]
      = [⟨0, (500 : ℚ)⟩, ⟨600, 600⟩] :=
    sortByTimestamp_of_sorted (by norm_num [List.pairwise_cons])
  simp only [aggregateEnergyData, calculateTotalEnergy, aggregateByHour,
    groupByKey, insertGrouped, trapezoidWh, List.map, List.filter, List.foldl,
    List.length, sortByTimestamp_singleton, hs2]
  norm_num [hs2, sortByTimestamp_singleton, trapezoidWh]

/-! ## Checkpoint invariants of the aggregation job (C3) -/

/-- `aggregateMinuteBucket` writes at most the bucket table. -/
theorem aggregateMinuteBucket_shape (bucketStart : ℤ) (db : DB) :
    ∃ bks, aggregateMinuteBucket bucketStart db = { db with buckets := bks } := by
  rcases hml : sortByTimestamp EnergyReading.timestamp (db.readings.filter fun r =>
      bucketStart ≤ r.timestamp ∧ r.timestamp < bucketStart + 60) with _ | ⟨r1, _ | ⟨r2, rest⟩⟩
  · refine ⟨db.buckets, ?_⟩
    simp only [aggregateMinuteBucket]
    rw [hml]
  · refine ⟨db.buckets, ?_⟩
    simp only [aggregateMinuteBucket]
    rw [hml]
  · refine ⟨upsertBucket (mkBucketRow bucketStart (r1 :: r2 :: rest) r1
      ((r2 :: rest).getLast (List.cons_ne_nil _ _))) db.buckets, ?_⟩
    simp only [aggregateMinuteBucket]
    rw [hml]

theorem aggregateMinuteBucket_job (bucketStart : ℤ) (db : DB) :
    (aggregateMinuteBucket bucketStart db).job = db.job := by
  obtain ⟨bks, h⟩ := aggregateMinuteBucket_shape bucketStart db
  rw [h]

theorem earliestReadingTimestamp_mem {readings : List EnergyReading} {t : ℤ}
    (h : earliestReadingTimestamp readings = some t) :
    ∃ r ∈ readings, r.timestamp = t := by
  unfold earliestReadingTimestamp at h
  cases hh : (sortByTimestamp EnergyReading.timestamp readings).head? with
  | none => rw [hh] at h; cases h
  | some r =>
      rw [hh] at h
      refine ⟨r, ?_, by simpa using h⟩
      have hm : r ∈ sortByTimestamp EnergyReading.timestamp readings :=
        List.mem_of_mem_head? hh
      exact (sortByTimestamp_perm EnergyReading.timestamp readings).subset hm

/-- Invariant of the minute-rollup loop: the job row keeps its status and
    `last_run_at`; its checkpoint only moves forward, stays a multiple of 60,
    and stays at least one minute behind the loop cursor; the cursor lands
    exactly on `nowB` when the loop completes without an exception. -/
theorem bucketLoop_spec (nowB : ℤ) (failAt : Option ℕ) (hnow : nowB % 60 = 0) :
    ∀ (db : DB) (current : ℤ) (processed : ℕ),
      current % 60 = 0 → current ≤ nowB →
      ∀ j : JobRow, db.job = some j →
        j.last_processed_timestamp ≤ current - 60 →
        j.last_processed_timestamp % 60 = 0 →
        ∃ db' current' ok,
          bucketLoop nowB failAt db current processed = (db', current', ok) ∧
          ∃ j', db'.job = some j' ∧
            j'.status = j.status ∧ j'.last_run_at = j.last_run_at ∧
            j.last_processed_timestamp ≤ j'.last_processed_timestamp ∧
            j'.last_processed_timestamp % 60 = 0 ∧
            j'.last_processed_timestamp ≤ current' - 60 ∧
            current ≤ current' ∧ current' ≤ nowB ∧
            (ok = true → current' = nowB) := by
  have H : ∀ (k : ℕ) (db : DB) (current : ℤ) (processed : ℕ),
      (nowB - current).toNat < k →
      current % 60 = 0 → current ≤ nowB →
      ∀ j : JobRow, db.job = some j →
        j.last_processed_timestamp ≤ current - 60 →
        j.last_processed_timestamp % 60 = 0 →
        ∃ db' current' ok,
          bucketLoop nowB failAt db current processed = (db', current', ok) ∧
          ∃ j', db'.job = some j' ∧
            j'.status = j.status ∧ j'.last_run_at = j.last_run_at ∧
            j.last_processed_timestamp ≤ j'.last_processed_timestamp ∧
            j'.last_processed_timestamp % 60 = 0 ∧
            j'.last_processed_timestamp ≤ current' - 60 ∧
            current ≤ current' ∧ current' ≤ nowB ∧
            (ok = true → current' = nowB) := by
    intro k
    induction k with
    | zero => intro db current processed hk; omega
    | succ k ihk =>
        intro db current processed hk hcur hle j hj hck hckm
        by_cases hlt : current < nowB
        · by_cases hfail : failAt = some processed
          · refine ⟨db, current, false, ?_, j, hj, rfl, rfl, le_refl _, hckm, hck,
              le_refl _, hle, fun h => absurd h (by simp)⟩
            rw [bucketLoop, if_pos hlt, if_pos hfail]
          · have hle' : current + 60 ≤ nowB := by omega
            have hcur' : (current + 60) % 60 = 0 := by omega
            have hk' : (nowB - (current + 60)).toNat < k := by omega
            have hj1 : (aggregateMinuteBucket current db).job = some j :=
              (aggregateMinuteBucket_job current db).trans hj
            by_cases hmod : (processed + 1) % 10 = 0
            · have hj2 : (if (processed + 1) % 10 = 0 then
                  setJob (fun jj => { jj with last_processed_timestamp := current })
                    (aggregateMinuteBucket current db)
                else aggregateMinuteBucket current db).job
                  = some { j with last_processed_timestamp := current } := by
                rw [if_pos hmod]
                simp [setJob, hj1]
              obtain ⟨db', current', ok, heq, j', hj', hstat, hrun, hmono, hmod',
                hbound, hcle, hcleb, hok⟩ :=
                ihk _ (current + 60) (processed + 1) hk' hcur' hle' _ hj2
                  (by show current ≤ current + 60 - 60; omega)
                  (by show current % 60 = 0; exact hcur)
              refine ⟨db', current', ok, ?_, j', hj', hstat, hrun,
                by simp at hmono; omega, hmod', hbound, by omega, hcleb, hok⟩
              rw [bucketLoop, if_pos hlt, if_neg hfail]
              exact heq
            · have hj2 : (if (processed + 1) % 10 = 0 then
                  setJob (fun jj => { jj with last_processed_timestamp := current })
                    (aggregateMinuteBucket current db)
                else aggregateMinuteBucket current db).job = some j := by
                rw [if_neg hmod]
                exact hj1
              obtain ⟨db', current', ok, heq, j', hj', hstat, hrun, hmono, hmod',
                hbound, hcle, hcleb, hok⟩ :=
                ihk _ (current + 60) (processed + 1) hk' hcur' hle' _ hj2
                  (by omega) hckm
              refine ⟨db', current', ok, ?_, j', hj', hstat, hrun, hmono, hmod',
                hbound, by omega, hcleb, hok⟩
              rw [bucketLoop, if_pos hlt, if_neg hfail]
              exact heq
        · refine ⟨db, current, true, ?_, j, hj, rfl, rfl, le_refl _, hckm, hck,
            le_refl _, hle, fun _ => by omega⟩
          rw [bucketLoop, if_neg hlt]
  intro db current processed
  exact H ((nowB - current).toNat + 1) db current processed (by omega)

/-- Seeding: a run on a store with no job row behaves like a run on the store
    whose job row was just created by the seeding step. -/
theorem processLatest_none_eq (now : ℤ) (failAt : Option ℕ) (db : DB)
    (hdb : db.job = none) :
    processLatest now failAt db = processLatest now failAt
      { db with job := some ⟨seedStart now db.readings, now, JobStatus.running⟩ } := by
  simp only [processLatest, hdb]

/-- Single-run checkpoint facts when a job row exists: the new checkpoint is a
    multiple of 60, at most `floor(now/60)·60 − 60`, and not below the old
    one; a completed run lands exactly on `floor(now/60)·60 − 60`, a failed
    run sets status `error` (stamping `last_run_at`) and leaves the
    checkpoint at its last persisted value, which satisfies the same bounds. -/
theorem processLatest_some_spec (now : ℤ) (failAt : Option ℕ) (db : DB) (j0 : JobRow)
    (hdb : db.job = some j0)
    (hm : j0.last_processed_timestamp % 60 = 0)
    (hb : j0.last_processed_timestamp ≤ now / 60 * 60 - 60) :
    ∃ j', (processLatest now failAt db).1.job = some j' ∧
      j'.last_processed_timestamp % 60 = 0 ∧
      j'.last_processed_timestamp ≤ now / 60 * 60 - 60 ∧
      j0.last_processed_timestamp ≤ j'.last_processed_timestamp ∧
      ((processLatest now failAt db).2 = true →
        j'.status = JobStatus.completed ∧
        j'.last_processed_timestamp = now / 60 * 60 - 60) ∧
      ((processLatest now failAt db).2 = false →
        j'.status = JobStatus.error ∧ j'.last_run_at = now) := by
  have hj1 : (setJob (fun j => { j with status := JobStatus.running, last_run_at := now })
      db).job = some { j0 with status := JobStatus.running, last_run_at := now } := by
    simp [setJob, hdb]
  obtain ⟨db', current', ok, heq, j', hj', hstat, hrun, hmono, hmod', hbound, hcle,
      hcleb, hok⟩ :=
    bucketLoop_spec (now / 60 * 60) failAt (by omega)
      (setJob (fun j => { j with status := JobStatus.running, last_run_at := now }) db)
      (j0.last_processed_timestamp + 60) 0 (by omega) (by omega) _ hj1
      (by show j0.last_processed_timestamp ≤ j0.last_processed_timestamp + 60 - 60; omega)
      (by show j0.last_processed_timestamp % 60 = 0; exact hm)
  have hmono' : j0.last_processed_timestamp ≤ j'.last_processed_timestamp := hmono
  cases ok with
  | true =>
      have hP : processLatest now failAt db
          = (setJob (fun _ => ⟨current' - 60, now, JobStatus.completed⟩) db', true) := by
        simp only [processLatest, hdb, heq]
      have hcn : current' = now / 60 * 60 := hok rfl
      refine ⟨⟨current' - 60, now, JobStatus.completed⟩, ?_, ?_, ?_, ?_, ?_, ?_⟩
      · rw [hP]
        simp [setJob, hj']
      · show (current' - 60) % 60 = 0
        omega
      · show current' - 60 ≤ now / 60 * 60 - 60
        omega
      · show j0.last_processed_timestamp ≤ current' - 60
        omega
      · intro _
        refine ⟨rfl, ?_⟩
        show current' - 60 = now / 60 * 60 - 60
        omega
      · intro h
        rw [hP] at h
        exact absurd h (by simp)
  | false =>
      have hP : processLatest now failAt db
          = (setJob (fun j => { j with status := JobStatus.error, last_run_at := now })
              db', false) := by
        simp only [processLatest, hdb, heq]
      refine ⟨{ j' with status := JobStatus.error, last_run_at := now }, ?_, ?_, ?_, ?_,
          ?_, ?_⟩
      · rw [hP]
        simp [setJob, hj']
      · show j'.last_processed_timestamp % 60 = 0
        exact hmod'
      · show j'.last_processed_timestamp ≤ now / 60 * 60 - 60
        omega
      · show j0.last_processed_timestamp ≤ j'.last_processed_timestamp
        exact hmono'
      · intro h
        rw [hP] at h
        exact absurd h (by simp)
      · intro _
        exact ⟨rfl, rfl⟩

/-- C3: for any run of `processLatest`, with or without an induced mid-loop
    exception, the checkpoint `last_processed_timestamp` is non-decreasing,
    always a multiple of 60, and at most `floor(now/60)·60 − 60` when
    written (assuming readings predate the current minute and a previously
    valid checkpoint); a failed run only sets status `error` (stamping
    `last_run_at`), leaving the checkpoint at its last persisted value. -/
theorem C3_checkpoint_monotonic_bounded (now : ℤ) (failAt : Option ℕ) (db : DB)
    (hreadings : ∀ r ∈ db.readings, r.timestamp < now / 60 * 60)
    (hjob : ∀ j ∈ db.job, j.last_processed_timestamp % 60 = 0 ∧
      j.last_processed_timestamp ≤ now / 60 * 60 - 60) :
    ∃ j', (processLatest now failAt db).1.job = some j' ∧
      j'.last_processed_timestamp % 60 = 0 ∧
      j'.last_processed_timestamp ≤ now / 60 * 60 - 60 ∧
      (∀ j ∈ db.job, j.last_processed_timestamp ≤ j'.last_processed_timestamp) ∧
      ((processLatest now failAt db).2 = true →
        j'.status = JobStatus.completed ∧
        j'.last_processed_timestamp = now / 60 * 60 - 60) ∧
      ((processLatest now failAt db).2 = false →
        j'.status = JobStatus.error ∧ j'.last_run_at = now) := by
  cases hdb : db.job with
  | some j0 =>
      obtain ⟨hm, hb⟩ := hjob j0 (by simp [hdb])
      obtain ⟨j', h1, h2, h3, h4, h5, h6⟩ :=
        processLatest_some_spec now failAt db j0 hdb hm hb
      refine ⟨j', h1, h2, h3, ?_, h5, h6⟩
      intro j hj
      have hjj : j0 = j := by simpa using hj
      rw [← hjj]
      exact h4
  | none =>
      have hseed : seedStart now db.readings % 60 = 0 ∧
          seedStart now db.readings ≤ now / 60 * 60 - 60 := by
        cases he : earliestReadingTimestamp db.readings with
        | none =>
            simp only [seedStart, he]
            constructor <;> omega
        | some t =>
            obtain ⟨r, hr, hrt⟩ := earliestReadingTimestamp_mem he
            have ht : t < now / 60 * 60 := hrt ▸ hreadings r hr
            simp only [seedStart, he]
            constructor <;> omega
      rw [processLatest_none_eq now failAt db hdb]
      obtain ⟨j', h1, h2, h3, h4, h5, h6⟩ :=
        processLatest_some_spec now failAt
          { db with job := some ⟨seedStart now db.readings, now, JobStatus.running⟩ }
          ⟨seedStart now db.readings, now, JobStatus.running⟩ rfl hseed.1 hseed.2
      refine ⟨j', h1, h2, h3, ?_, h5, h6⟩
      intro j hj
      simp at hj

/-- Witness for C3: a run at `now = 125` over an empty store with checkpoint
    0 (which completes and advances the checkpoint to 60). -/
theorem C3_checkpoint_monotonic_bounded_witness :
    ((∀ r ∈ (DB.mk [] [] (some ⟨0, 0, JobStatus.completed⟩)).readings,
        r.timestamp < 125 / 60 * 60) ∧
      (∀ j ∈ (DB.mk [] [] (some ⟨0, 0, JobStatus.completed⟩)).job,
        j.last_processed_timestamp % 60 = 0 ∧
          j.last_processed_timestamp ≤ 125 / 60 * 60 - 60)) ∧
    (∃ j', (processLatest 125 none (DB.mk [] [] (some ⟨0, 0, JobStatus.completed⟩))).1.job
        = some j' ∧
      j'.last_processed_timestamp % 60 = 0 ∧
      j'.last_processed_timestamp ≤ 125 / 60 * 60 - 60 ∧
      (∀ j ∈ (DB.mk [] [] (some ⟨0, 0, JobStatus.completed⟩)).job,
        j.last_processed_timestamp ≤ j'.last_processed_timestamp) ∧
      ((processLatest 125 none (DB.mk [] [] (some ⟨0, 0, JobStatus.completed⟩))).2 = true →
        j'.status = JobStatus.completed ∧
        j'.last_processed_timestamp = 125 / 60 * 60 - 60) ∧
      ((processLatest 125 none (DB.mk [] [] (some ⟨0, 0, JobStatus.completed⟩))).2 = false →
        j'.status = JobStatus.error ∧ j'.last_run_at = 125)) :=
  ⟨⟨by simp, by
      intro j hj
      obtain rfl := Option.some_inj.mp hj.symm
      exact ⟨by decide, by decide⟩⟩,
    C3_checkpoint_monotonic_bounded 125 none _ (by simp)
      (by
        intro j hj
        obtain rfl := Option.some_inj.mp hj.symm
        exact ⟨by decide, by decide⟩)⟩

/-! ## Bucket-assisted boundary behaviour at an aligned `to` (C2) -/

/-- C2, evaluated at the failing input: for `from = 0`, `to = 3600`
    (minute-aligned), no raw readings, and a store holding one bucket that
    starts exactly at `to`, the bucket-assisted path fetches that bucket —
    although its minute `[3600, 3660)` lies outside the rounded range
    `[0, 3600]` — and stitches its stored samples (timestamps 3600 and 3659)
    into the synthetic series, reporting `59/3600` kWh of solar energy for a
    range containing no raw data at all. -/
theorem C2_aligned_to_fetches_bucket_outside_range :
    aggregateEnergyDataFromBuckets 0 [] [bucketAtAlignedTo] 0 3600 "day" EnergyType.solar
      = AggregationResult.single ⟨[⟨hourLabel 0 3600, 59 / 3600, 3600⟩], 59 / 3600⟩ ∧
      ¬(bucketAtAlignedTo.bucket_start + 60 ≤ 3600) := by
  constructor
  · have h1 : aggregateEnergyDataFromBuckets 0 [] [bucketAtAlignedTo] 0 3600 "day"
        EnergyType.solar
        = aggregateEnergyData 0
            [⟨0, 3600, 0, 0, 0, 1000, 0⟩, ⟨0, 3659, 0, 0, 0, 1000, 0⟩] "day"
            EnergyType.solar := by
      have hsr : sortByTimestamp EnergyReading.timestamp
          [⟨0, 3600, 0, 0, 0, 1000, 0⟩, ⟨0, 3659, 0, 0, 0, 1000, 0⟩]
          = [⟨0, 3600, 0, 0, 0, 1000, 0⟩, ⟨0, 3659, 0, 0, 0, 1000, 0⟩] :=
        sortByTimestamp_of_sorted (by norm_num [List.pairwise_cons])
      have hgb : getBucketsForRange [bucketAtAlignedTo] 0 3660 = [bucketAtAlignedTo] := by
        rw [getBucketsForRange,
          show ([bucketAtAlignedTo].filter fun b =>
              (0 : ℤ) ≤ b.bucket_start ∧ b.bucket_start < 3660) = [bucketAtAlignedTo]
            from by norm_num [bucketAtAlignedTo]]
        exact List.mergeSort_of_sorted (List.pairwise_singleton _ _)
      simp only [aggregateEnergyDataFromBuckets]
      norm_num [hgb]
      simp only [bucketAtAlignedTo, List.foldr]
      norm_num [hsr]
    rw [h1]
    have hs : sortByTimestamp TimedValue.timestamp [⟨3600, (1000 : ℚ)⟩, ⟨3659, 1000⟩]
        = [⟨3600, (1000 : ℚ)⟩, ⟨3659, 1000⟩] :=
      sortByTimestamp_of_sorted (by norm_num [List.pairwise_cons])
    simp only [aggregateEnergyData, calculateTotalEnergy, aggregateByHour,
      groupByKey, insertGrouped, List.map, List.filter, List.foldl, List.length,
      sortByTimestamp_singleton, hs]
    norm_num [hs, sortByTimestamp_singleton, trapezoidWh]
  · decide

end HomeOS
